import Mathlib

/-!
Shallow embedding of the `memvigil` MemoryMonitor (src/lib/MemoryMonitor.js)
and proofs about its specification claims.

Numbers in the JavaScript source are IEEE doubles; here they are modelled as
rationals (ℚ) for byte counts, timestamps and ratios, and as ℕ/ℤ where the
source only ever uses integral values.  Division by zero follows the ℚ
convention `x / 0 = 0`.
-/

namespace Memvigil

/-- A point-in-time memory usage sample, as returned by `process.memoryUsage()`. -/
structure MemoryUsage where
  rss : ℚ
  heapTotal : ℚ
  heapUsed : ℚ
  external : ℚ
  deriving Repr, DecidableEq

/-- One entry of `this.history`: `timestamp: Date.now()` plus the sample. -/
structure MemEntry where
  timestamp : ℚ
  memoryUsage : MemoryUsage
  deriving Repr, DecidableEq

/-- A CPU usage reading `user / system` in microseconds. -/
structure CpuUsage where
  user : ℚ
  system : ℚ
  deriving Repr, DecidableEq

/-- One entry of `this.cpuUsageHistory`. -/
structure CpuEntry where
  timestamp : ℚ
  cpuUsage : CpuUsage
  deriving Repr, DecidableEq

/-- One entry of `this.gcHistory`: the `v8.getHeapStatistics()` record is
opaque to the monitor and modelled as a single rational tag. -/
structure GcEntry where
  timestamp : ℚ
  gcStats : ℚ
  deriving Repr, DecidableEq

/-! ## History buffers (claim C1)

Each tick does `buf.push(x)` and then, when `buf.length > maxHistorySize`,
`buf = buf.slice(-maxHistorySize)`.  `slice(-k)` returns the last `k`
elements of the array (`slice(-0)` is `slice(0)`, the whole array). -/

/-- JavaScript `array.slice(-k)`: the last `k` elements of the array
(`slice(-0)` is `slice(0)`, a copy of the whole array). -/
def sliceLast (k : Nat) (l : List α) : List α :=
  if k = 0 then l else l.drop (l.length - k)

/-- One bounded append, as performed on `history`, `cpuUsageHistory` and
`gcHistory` by the scheduler tick (MemoryMonitor.js lines 40–48) and the GC
tracker (lines 260–272): push, then trim to the last `maxSize` entries when
the length exceeds `maxSize`. -/
def boundedAppend (maxSize : Nat) (buf : List α) (x : α) : List α :=
  let b := buf ++ [x]
  if maxSize < b.length then sliceLast maxSize b else b

lemma sliceLast_pos (k : Nat) (hk : k ≠ 0) (l : List α) :
    sliceLast k l = l.drop (l.length - k) := by
  simp [sliceLast, hk]

lemma sliceLast_nil (k : Nat) : sliceLast k ([] : List α) = [] := by
  simp [sliceLast]

/-- After one bounded append, the buffer is again the last-`C` suffix of the
full append sequence (capacity `C ≥ 1`). -/
lemma boundedAppend_sliceLast (C : Nat) (hC : 1 ≤ C) (ys : List α) (x : α) :
    boundedAppend C (sliceLast C ys) x = sliceLast C (ys ++ [x]) := by
  have hCne : C ≠ 0 := by omega
  rw [sliceLast_pos C hCne ys, sliceLast_pos C hCne (ys ++ [x])]
  simp only [boundedAppend]
  by_cases hlen : ys.length < C
  · have h1 : ys.length - C = 0 := by omega
    have hcond : ¬ C < (ys ++ [x]).length := by simp; omega
    rw [h1]
    simp only [List.drop_zero, if_neg hcond]
    have h2 : (ys ++ [x]).length - C = 0 := by simp; omega
    rw [h2, List.drop_zero]
  · push_neg at hlen
    have hdroplen : (ys.drop (ys.length - C) ++ [x]).length = C + 1 := by
      simp [List.length_drop]; omega
    have hcond : C < (ys.drop (ys.length - C) ++ [x]).length := by
      rw [hdroplen]; omega
    rw [if_pos hcond, sliceLast_pos C hCne, hdroplen]
    have h3 : C + 1 - C = 1 := by omega
    rw [h3, List.drop_append_eq_append_drop, List.drop_drop,
        List.drop_append_eq_append_drop]
    have h4 : 1 - (ys.drop (ys.length - C)).length = 0 := by
      simp [List.length_drop]; omega
    have h5 : (ys ++ [x]).length - C - ys.length = 0 := by simp; omega
    have h6 : ys.length - C + 1 = (ys ++ [x]).length - C := by simp; omega
    rw [h4, h5, h6, List.drop_zero]

lemma foldl_boundedAppend (C : Nat) (hC : 1 ≤ C) (xs : List α) :
    ∀ ys : List α,
      List.foldl (boundedAppend C) (sliceLast C ys) xs = sliceLast C (ys ++ xs) := by
  induction xs with
  | nil => intro ys; simp
  | cons x xs ih =>
      intro ys
      rw [List.foldl_cons, boundedAppend_sliceLast C hC ys x, ih (ys ++ [x]),
          List.append_assoc]
      rfl

/-- C1: every history buffer with capacity `C = maxHistorySize ≥ 1`, filled by
`N` bounded appends (scheduler tick / GC tracker), has length `min N C` and
holds exactly the `C` most recently appended entries in chronological append
order (the length-`min N C` suffix of the append sequence). -/
theorem C1_history_buffer (C : Nat) (hC : 1 ≤ C) (xs : List α) :
    (List.foldl (boundedAppend C) [] xs).length = min xs.length C ∧
      List.foldl (boundedAppend C) [] xs = xs.drop (xs.length - C) := by
  have hCne : C ≠ 0 := by omega
  have h0 : ([] : List α) = sliceLast C [] := (sliceLast_nil C).symm
  have h := foldl_boundedAppend C hC xs ([] : List α)
  rw [← h0, List.nil_append] at h
  rw [h, sliceLast_pos C hCne]
  refine ⟨?_, rfl⟩
  rw [List.length_drop]
  omega

/-- Concrete instance of `C1_history_buffer`: capacity 2, three appends. -/
theorem C1_history_buffer_witness :
    (List.foldl (boundedAppend 2) [] [10, 20, 30]).length
        = min ([10, 20, 30] : List Nat).length 2 ∧
      List.foldl (boundedAppend 2) [] [10, 20, 30]
        = ([10, 20, 30] : List Nat).drop (([10, 20, 30] : List Nat).length - 2) :=
  C1_history_buffer 2 (by decide) [10, 20, 30]

/-! ## Trend analyzer (claim C2)

`analyzeMemoryTrend` (MemoryMonitor.js lines 224–256). -/

/-- The result record of `analyzeMemoryTrend`. -/
structure MemoryTrend where
  direction : String
  rate : ℚ
  prediction : ℚ
  deriving Repr, DecidableEq

/-- `analyzeMemoryTrend` translated clause by clause from the source:
`slice(-10)`, the computational least-squares slope, `rate = slope / 1000`,
direction classification, and `prediction = max(0, current + rate * 3600)`. -/
def analyzeMemoryTrend (history : List MemEntry) : Option MemoryTrend :=
  if history.length < 5 then none
  else
    let recent := sliceLast 10 history
    let times := recent.map (fun h => h.timestamp)
    let values := recent.map (fun h => h.memoryUsage.heapUsed)
    let n : ℚ := recent.length
    let sumX := times.sum
    let sumY := values.sum
    let sumXY := (List.zipWith (fun x y => x * y) times values).sum
    let sumXX := (times.map (fun x => x * x)).sum
    let slope := (n * sumXY - sumX * sumY) / (n * sumXX - sumX * sumX)
    let rate := slope / 1000
    let currentMemory := values.getLast?.getD 0
    let direction : String :=
      if |rate| < 100 then "stable"
      else if rate > 0 then "increasing" else "decreasing"
    some ⟨direction, rate, max 0 (currentMemory + rate * 3600)⟩

/-- The arithmetic mean of a list of rationals. -/
def listMean (l : List ℚ) : ℚ := l.sum / l.length

/-- The ordinary-least-squares slope of `y` against `x` in its textbook
mean-centred form.  This follows the spec's words (§4.4: "fits a simple
ordinary-least-squares line of heap-used bytes against timestamp"), not the
source's computational formula. -/
def olsSlope (pts : List (ℚ × ℚ)) : ℚ :=
  let xbar := listMean (pts.map Prod.fst)
  let ybar := listMean (pts.map Prod.snd)
  (pts.map (fun p => (p.1 - xbar) * (p.2 - ybar))).sum /
    (pts.map (fun p => (p.1 - xbar) * (p.1 - xbar))).sum

/-- The spec's description of `analyzeMemoryTrend` (spec.md §4.4), written
from the spec's words: at most the 10 most recent samples, an
ordinary-least-squares fit of heap-used against timestamp, `rate` in bytes
per second, the stable/increasing/decreasing classification, and a one-hour
extrapolation floored at zero. -/
def analyzeMemoryTrendSpec (history : List MemEntry) : Option MemoryTrend :=
  if history.length < 5 then none
  else
    let recent := sliceLast 10 history
    let pts := recent.map (fun h => (h.timestamp, h.memoryUsage.heapUsed))
    let rate := olsSlope pts / 1000
    let lastHeap := (recent.map (fun h => h.memoryUsage.heapUsed)).getLast?.getD 0
    let direction : String :=
      if |rate| < 100 then "stable"
      else if rate > 0 then "increasing" else "decreasing"
    some ⟨direction, rate, max 0 (lastHeap + rate * 3600)⟩

lemma sum_centered_mul (l : List (ℚ × ℚ)) (a b : ℚ) :
    (l.map (fun p => (p.1 - a) * (p.2 - b))).sum =
      (l.map (fun p => p.1 * p.2)).sum - b * (l.map Prod.fst).sum
        - a * (l.map Prod.snd).sum + (l.length : ℚ) * (a * b) := by
  induction l with
  | nil => simp
  | cons p l ih =>
      simp only [List.map_cons, List.sum_cons, List.length_cons, ih]
      push_cast
      ring

lemma sum_centered_sq (l : List (ℚ × ℚ)) (a : ℚ) :
    (l.map (fun p => (p.1 - a) * (p.1 - a))).sum =
      (l.map (fun p => p.1 * p.1)).sum - 2 * a * (l.map Prod.fst).sum
        + (l.length : ℚ) * (a * a) := by
  induction l with
  | nil => simp
  | cons p l ih =>
      simp only [List.map_cons, List.sum_cons, List.length_cons, ih]
      push_cast
      ring

lemma comp_slope_eq (n A B C D : ℚ) (hn : n ≠ 0) :
    (n * A - B * C) / (n * D - B * B) =
      (A - (C / n) * B - (B / n) * C + n * ((B / n) * (C / n))) /
        (D - 2 * (B / n) * B + n * ((B / n) * (B / n))) := by
  have h1 : A - (C / n) * B - (B / n) * C + n * ((B / n) * (C / n))
      = (n * A - B * C) / n := by field_simp; ring
  have h2 : D - 2 * (B / n) * B + n * ((B / n) * (B / n))
      = (n * D - B * B) / n := by field_simp; ring
  rcases eq_or_ne (n * D - B * B) 0 with h0 | h0
  · rw [h1, h2, h0, zero_div, div_zero, div_zero]
  · rw [h1, h2, div_eq_div_iff h0 (div_ne_zero h0 hn)]
    field_simp

/-- The computational regression slope used by the source equals the
textbook mean-centred ordinary-least-squares slope, for a nonempty list of
points. -/
lemma slope_eq_olsSlope (l : List (ℚ × ℚ)) (hne : l ≠ []) :
    ((l.length : ℚ) * (l.map (fun p => p.1 * p.2)).sum
        - (l.map Prod.fst).sum * (l.map Prod.snd).sum) /
      ((l.length : ℚ) * (l.map (fun p => p.1 * p.1)).sum
        - (l.map Prod.fst).sum * (l.map Prod.fst).sum) = olsSlope l := by
  have hlen0 : l.length ≠ 0 := fun h => hne (List.length_eq_zero.mp h)
  have hn : (l.length : ℚ) ≠ 0 := Nat.cast_ne_zero.mpr hlen0
  simp only [olsSlope, listMean, List.length_map]
  rw [sum_centered_mul, sum_centered_sq]
  exact comp_slope_eq (l.length : ℚ) (l.map (fun p => p.1 * p.2)).sum
    (l.map Prod.fst).sum (l.map Prod.snd).sum (l.map (fun p => p.1 * p.1)).sum hn

lemma zipWith_mul_map (f g : MemEntry → ℚ) (l : List MemEntry) :
    List.zipWith (fun x y => x * y) (l.map f) (l.map g)
      = l.map (fun h => f h * g h) := by
  induction l with
  | nil => rfl
  | cons x l ih => simp only [List.map_cons, List.zipWith_cons_cons, ih]

lemma length_sliceLast (k : Nat) (hk : k ≠ 0) (l : List α) :
    (sliceLast k l).length = min l.length k := by
  rw [sliceLast_pos k hk, List.length_drop]
  omega

/-- C2: `analyzeMemoryTrend` returns `none` below 5 samples; otherwise it uses
the 10 most recent samples, fits an ordinary-least-squares line of heap-used
against timestamp, reports `rate = slope / 1000`, classifies the direction
(stable below 100 bytes/s in absolute value, else by sign), and predicts
`max 0 (last heap-used + rate * 3600)` — i.e. it coincides with the
spec-worded `analyzeMemoryTrendSpec` everywhere. -/
theorem C2_analyzeMemoryTrend (history : List MemEntry) :
    analyzeMemoryTrend history = analyzeMemoryTrendSpec history := by
  by_cases h5 : history.length < 5
  · simp [analyzeMemoryTrend, analyzeMemoryTrendSpec, h5]
  · have hlen : (sliceLast 10 history).length = min history.length 10 :=
      length_sliceLast 10 (by norm_num) history
    have hne : sliceLast 10 history ≠ [] := by
      intro hnil
      rw [hnil] at hlen
      simp at hlen
      omega
    have hkey := slope_eq_olsSlope
      ((sliceLast 10 history).map (fun h => (h.timestamp, h.memoryUsage.heapUsed)))
      (by simpa using hne)
    simp only [List.map_map, List.length_map, Function.comp_def] at hkey
    simp only [analyzeMemoryTrend, analyzeMemoryTrendSpec, if_neg h5,
      zipWith_mul_map, List.map_map, Function.comp_def]
    rw [hkey]

/-! ## Leak heuristic (claim C3)

`detectLeaks` (MemoryMonitor.js lines 179–208), `analyzeTrend`
(lines 210–215), `calculateLeakSeverity` (lines 217–222) and
`getLeakSuggestions` (lines 305–318). -/

/-- The spacing between the campaign's measurements:
`Math.max(Math.floor(duration / samples), 100)` (line 182); `duration` and
`samples` are integral in every use, so `Math.floor(duration / samples)` is
ℕ-division. -/
def leakMeasureInterval (duration samples : Nat) : Nat :=
  max (duration / samples) 100

/-- `analyzeTrend`: relative growth `(last - first) / first` of the
measurement sequence, `0` below two measurements. -/
def analyzeTrend (measurements : List ℚ) : ℚ :=
  if measurements.length < 2 then 0
  else (measurements.getLast?.getD 0 - measurements.headI) / measurements.headI

/-- `calculateLeakSeverity`. -/
def calculateLeakSeverity (trend : ℚ) : String :=
  if trend ≥ 0.5 then "critical"
  else if trend ≥ 0.3 then "high"
  else if trend ≥ 0.15 then "medium"
  else "low"

/-- The payload of a `leakDetected` event; the fixed suggestion texts of
`getLeakSuggestions` are abstracted to the numeric percentage-increase
annotation they carry. -/
structure LeakEvent where
  trend : ℚ
  measurements : List ℚ
  severity : String
  increasePercent : ℚ
  deriving Repr, DecidableEq

/-- The conclusion of one `detectLeaks` campaign once all measurements have
been collected (lines 190–204): the emitted `leakDetected` event when
`trend > threshold`, `none` otherwise.  The promise resolves in both cases
(`resolve()` runs unconditionally after the final measurement), which the
totality of this function models. -/
def detectLeaksOutcome (measurements : List ℚ) (threshold : ℚ) :
    Option LeakEvent :=
  let trend := analyzeTrend measurements
  if trend > threshold then
    some ⟨trend, measurements, calculateLeakSeverity trend,
      (measurements.getLast?.getD 0 - measurements.headI) / measurements.headI * 100⟩
  else none

/-- C3: measurement spacing is `max (duration / samples) 100` milliseconds;
the campaign's trend is `(last - first) / first`; a `leakDetected` event is
produced iff `trend > relativeThreshold`, with the claimed severity bands;
and the campaign always produces an outcome (some or none), i.e. resolves. -/
theorem C3_detectLeaks (duration samples : Nat) (hs : 1 ≤ samples)
    (measurements : List ℚ) (hm : measurements.length = samples)
    (relThreshold : ℚ) :
    leakMeasureInterval duration samples = max (duration / samples) 100 ∧
    analyzeTrend measurements =
      (measurements.getLast?.getD 0 - measurements.headI) / measurements.headI ∧
    ((detectLeaksOutcome measurements relThreshold).isSome ↔
        analyzeTrend measurements > relThreshold) ∧
    (∀ ev, detectLeaksOutcome measurements relThreshold = some ev →
        ev.trend = analyzeTrend measurements ∧
        ev.measurements = measurements ∧
        (0.5 ≤ ev.trend → ev.severity = "critical") ∧
        (0.3 ≤ ev.trend ∧ ev.trend < 0.5 → ev.severity = "high") ∧
        (0.15 ≤ ev.trend ∧ ev.trend < 0.3 → ev.severity = "medium") ∧
        (ev.trend < 0.15 → ev.severity = "low")) := by
  refine ⟨rfl, ?_, ?_, ?_⟩
  · by_cases h2 : measurements.length < 2
    · rcases measurements with _ | ⟨x, _ | ⟨y, t⟩⟩
      · exfalso; simp at hm; omega
      · simp [analyzeTrend]
      · exfalso; simp at hm h2; omega
    · simp [analyzeTrend, h2]
  · simp only [detectLeaksOutcome]
    by_cases h : analyzeTrend measurements > relThreshold <;> simp [h]
  · intro ev hev
    simp only [detectLeaksOutcome] at hev
    by_cases h : analyzeTrend measurements > relThreshold
    · rw [if_pos h] at hev
      cases hev
      refine ⟨rfl, rfl, ?_, ?_, ?_, ?_⟩ <;>
        · intro hb
          simp only [calculateLeakSeverity]
          split_ifs <;> first | rfl | (exfalso; rcases hb with ⟨h1, h2⟩ <;> linarith) | (exfalso; linarith)
    · rw [if_neg h] at hev
      exact absurd hev (by simp)

/-- Concrete instance of `C3_detectLeaks`: five samples growing from
1,000,000 to 1,600,000 bytes at default threshold 0.1. -/
theorem C3_detectLeaks_witness :
    leakMeasureInterval 60000 5 = max (60000 / 5) 100 ∧
    analyzeTrend [1000000, 1150000, 1300000, 1450000, 1600000] =
      (([1000000, 1150000, 1300000, 1450000, 1600000] : List ℚ).getLast?.getD 0
          - ([1000000, 1150000, 1300000, 1450000, 1600000] : List ℚ).headI)
        / ([1000000, 1150000, 1300000, 1450000, 1600000] : List ℚ).headI ∧
    ((detectLeaksOutcome [1000000, 1150000, 1300000, 1450000, 1600000] 0.1).isSome ↔
        analyzeTrend [1000000, 1150000, 1300000, 1450000, 1600000] > 0.1) ∧
    (∀ ev, detectLeaksOutcome [1000000, 1150000, 1300000, 1450000, 1600000] 0.1 = some ev →
        ev.trend = analyzeTrend [1000000, 1150000, 1300000, 1450000, 1600000] ∧
        ev.measurements = [1000000, 1150000, 1300000, 1450000, 1600000] ∧
        (0.5 ≤ ev.trend → ev.severity = "critical") ∧
        (0.3 ≤ ev.trend ∧ ev.trend < 0.5 → ev.severity = "high") ∧
        (0.15 ≤ ev.trend ∧ ev.trend < 0.3 → ev.severity = "medium") ∧
        (ev.trend < 0.15 → ev.severity = "low")) :=
  C3_detectLeaks 60000 5 (by decide) _ (by decide) 0.1

/-! ## Memory pressure evaluator (claim C4)

`detectMemoryPressure` (MemoryMonitor.js lines 461–501) over
`getMemoryBreakdown` (lines 281–294). -/

/-- Qualitative pressure levels, ordered `low < medium < high < critical`. -/
inductive PressureLevel
  | low
  | medium
  | high
  | critical
  deriving Repr, DecidableEq

/-- Severity rank of a pressure level. -/
def PressureLevel.rank : PressureLevel → Nat
  | .low => 0
  | .medium => 1
  | .high => 2
  | .critical => 3

/-- The more severe of two pressure levels. -/
def PressureLevel.maxLevel (a b : PressureLevel) : PressureLevel :=
  if a.rank ≤ b.rank then b else a

/-- The factor messages pushed onto `factors` by `detectMemoryPressure`,
abstracted from their formatted strings. -/
inductive PressureFactor
  | heapUtilizationFactor
  | systemMemoryFactor
  | overThresholdFactor
  | increasingTrendFactor
  deriving Repr, DecidableEq

/-- The fields of `getMemoryBreakdown` that `detectMemoryPressure` reads;
the process/system readings are explicit inputs. -/
structure MemoryBreakdown where
  heapUsed : ℚ
  heapTotal : ℚ
  totalSystemMemory : ℚ
  freeSystemMemory : ℚ
  deriving Repr, DecidableEq

/-- `heapUtilization: memoryUsage.heapUsed / memoryUsage.heapTotal`. -/
def MemoryBreakdown.heapUtilization (b : MemoryBreakdown) : ℚ :=
  b.heapUsed / b.heapTotal

/-- `systemMemoryUtilization: (totalMemory - freeMemory) / totalMemory`. -/
def MemoryBreakdown.systemMemoryUtilization (b : MemoryBreakdown) : ℚ :=
  (b.totalSystemMemory - b.freeSystemMemory) / b.totalSystemMemory

/-- The result of `detectMemoryPressure`. -/
structure PressureResult where
  isUnderPressure : Bool
  pressureLevel : PressureLevel
  factors : List PressureFactor
  deriving Repr, DecidableEq

/-- The heap-utilization rule (lines 467–473): `> 0.9` pushes a factor and
sets the level to `critical`; `> 0.75` pushes a factor and raises `low` to
`high`. -/
def checkHeapRule (b : MemoryBreakdown)
    (s : List PressureFactor × PressureLevel) :
    List PressureFactor × PressureLevel :=
  if b.heapUtilization > 0.9 then
    (s.1 ++ [.heapUtilizationFactor], .critical)
  else if b.heapUtilization > 0.75 then
    (s.1 ++ [.heapUtilizationFactor], if s.2 = .low then .high else s.2)
  else s

/-- The system-memory rule (lines 476–481): `> 0.9` pushes a factor and sets
the level to `high` unless it is already `critical`. -/
def checkSystemRule (b : MemoryBreakdown)
    (s : List PressureFactor × PressureLevel) :
    List PressureFactor × PressureLevel :=
  if b.systemMemoryUtilization > 0.9 then
    (s.1 ++ [.systemMemoryFactor], if s.2 ≠ .critical then .high else s.2)
  else s

/-- The threshold rule (lines 484–487): heap-used above the configured
threshold pushes a factor and raises `low` to `medium`. -/
def checkThresholdRule (threshold heapUsed : ℚ)
    (s : List PressureFactor × PressureLevel) :
    List PressureFactor × PressureLevel :=
  if heapUsed > threshold then
    (s.1 ++ [.overThresholdFactor], if s.2 = .low then .medium else s.2)
  else s

/-- The trend rule (lines 490–494): an `increasing` trend above 10000
bytes/sec pushes a factor and raises `low` to `medium`. -/
def checkTrendRule (tr : Option MemoryTrend)
    (s : List PressureFactor × PressureLevel) :
    List PressureFactor × PressureLevel :=
  match tr with
  | some t =>
      if t.direction = "increasing" ∧ t.rate > 10000 then
        (s.1 ++ [.increasingTrendFactor], if s.2 = .low then .medium else s.2)
      else s
  | none => s

/-- `detectMemoryPressure` (lines 461–501): the four rule blocks applied in
source order to the initial state `([], low)`, then packaged with
`isUnderPressure: factors.length > 0`. -/
def detectMemoryPressure (threshold : ℚ) (b : MemoryBreakdown)
    (history : List MemEntry) : PressureResult :=
  let s := checkTrendRule (analyzeMemoryTrend history)
    (checkThresholdRule threshold b.heapUsed
      (checkSystemRule b (checkHeapRule b ([], .low))))
  ⟨decide (0 < s.1.length), s.2, s.1⟩

/-- The spec's description of `detectMemoryPressure` (spec.md §4.6), written
from the spec's words: the five rules are evaluated independently, each
triggered rule contributes one factor and one level, the result level is
the most severe triggered level (default `low`), and
`isUnderPressure` is factor-list non-emptiness. -/
def detectMemoryPressureSpec (threshold : ℚ) (b : MemoryBreakdown)
    (history : List MemEntry) : PressureResult :=
  let triggered : List (PressureFactor × PressureLevel) :=
    (if b.heapUtilization > 0.9 then [(.heapUtilizationFactor, .critical)]
     else if b.heapUtilization > 0.75 then [(.heapUtilizationFactor, .high)]
     else []) ++
    (if b.systemMemoryUtilization > 0.9 then [(.systemMemoryFactor, .high)]
     else []) ++
    (if b.heapUsed > threshold then [(.overThresholdFactor, .medium)] else []) ++
    (match analyzeMemoryTrend history with
     | some t =>
         if t.direction = "increasing" ∧ t.rate > 10000 then
           [(.increasingTrendFactor, .medium)]
         else []
     | none => [])
  ⟨decide (triggered ≠ []),
    (triggered.map Prod.snd).foldl PressureLevel.maxLevel .low,
    triggered.map Prod.fst⟩

/-- C4: `detectMemoryPressure` evaluates its five rules independently,
accumulates one factor per triggered rule, reports the most severe
triggered level (default `low`), and reports
`isUnderPressure` iff any factor accumulated — i.e. it coincides with the
spec-worded `detectMemoryPressureSpec` everywhere. -/
theorem C4_detectMemoryPressure (threshold : ℚ) (b : MemoryBreakdown)
    (history : List MemEntry) :
    detectMemoryPressure threshold b history
      = detectMemoryPressureSpec threshold b history := by
  unfold detectMemoryPressure detectMemoryPressureSpec
  rcases htr : analyzeMemoryTrend history with _ | t
  · by_cases h1 : b.heapUtilization > 0.9 <;>
    by_cases h2 : b.heapUtilization > 0.75 <;>
    by_cases h3 : b.systemMemoryUtilization > 0.9 <;>
    by_cases h4 : b.heapUsed > threshold <;>
      simp [checkHeapRule, checkSystemRule, checkThresholdRule, checkTrendRule,
        PressureLevel.maxLevel, PressureLevel.rank, h1, h2, h3, h4]
  · by_cases h1 : b.heapUtilization > 0.9 <;>
    by_cases h2 : b.heapUtilization > 0.75 <;>
    by_cases h3 : b.systemMemoryUtilization > 0.9 <;>
    by_cases h4 : b.heapUsed > threshold <;>
    by_cases h5 : t.direction = "increasing" ∧ t.rate > 10000 <;>
      simp [checkHeapRule, checkSystemRule, checkThresholdRule, checkTrendRule,
        PressureLevel.maxLevel, PressureLevel.rank, h1, h2, h3, h4, h5]

/-! ## Tick alerts and threshold callbacks (claim C5)

The tick body (MemoryMonitor.js lines 50–60), `checkAlertThresholds`
(lines 91–107) and `notifyOnThresholdExceeded` (lines 173–177). -/

/-- The events one scheduler tick can publish (payloads elided; the
conditional `memoryTrend` emission is not needed for this claim). -/
inductive TickEvent
  | thresholdExceeded
  | criticalAlert
  | warningAlert
  | memoryStats
  | cpuStats
  deriving Repr, DecidableEq

/-- The optional two-tier alert thresholds from the constructor options;
`none` models an absent property. -/
structure AlertThresholds where
  warning : Option ℚ
  critical : Option ℚ
  deriving Repr, DecidableEq

/-- JavaScript truthiness of an optional numeric property, as tested by
`this.alertThresholds.critical && ...`: an absent property and the number
`0` are falsy (`NaN`, the other falsy number, has no ℚ counterpart). -/
def truthy : Option ℚ → Bool
  | none => false
  | some x => decide (x ≠ 0)

/-- `checkAlertThresholds`: the critical branch guards the warning branch
(`else if`), so at most one alert is produced per tick. -/
def checkAlertThresholds (a : AlertThresholds) (heapUsed : ℚ) :
    List TickEvent :=
  if truthy a.critical ∧ heapUsed > a.critical.getD 0 then [.criticalAlert]
  else if truthy a.warning ∧ heapUsed > a.warning.getD 0 then [.warningAlert]
  else []

/-- The events emitted by one scheduler tick, in source order: the hard
threshold check, then `checkAlertThresholds`, then the stats events. -/
def tickEvents (threshold : ℚ) (a : AlertThresholds) (heapUsed : ℚ) :
    List TickEvent :=
  (if heapUsed > threshold then [.thresholdExceeded] else [])
    ++ checkAlertThresholds a heapUsed ++ [.memoryStats, .cpuStats]

/-- `notifyOnThresholdExceeded` adds one more listener for the
`thresholdExceeded` event to the already registered ones. -/
def notifyOnThresholdExceeded (callbacks : List β) (m : β) : List β :=
  callbacks ++ [m]

/-- The notification methods invoked on one tick: every registered
`thresholdExceeded` listener fires exactly when that event is emitted. -/
def invokedCallbacks (callbacks : List β) (threshold heapUsed : ℚ) :
    List β :=
  if heapUsed > threshold then callbacks else []

lemma criticalAlert_mem (a : AlertThresholds) (heapUsed : ℚ) :
    TickEvent.criticalAlert ∈ checkAlertThresholds a heapUsed ↔
      ∃ c, a.critical = some c ∧ c ≠ 0 ∧ heapUsed > c := by
  rcases a with ⟨w, c⟩
  rcases c with _ | c <;> simp only [checkAlertThresholds, truthy] <;>
    split_ifs <;> simp_all

lemma warningAlert_mem (a : AlertThresholds) (heapUsed : ℚ) :
    TickEvent.warningAlert ∈ checkAlertThresholds a heapUsed ↔
      (¬ ∃ c, a.critical = some c ∧ c ≠ 0 ∧ heapUsed > c) ∧
        ∃ w, a.warning = some w ∧ w ≠ 0 ∧ heapUsed > w := by
  rcases a with ⟨w, c⟩
  rcases c with _ | c <;> rcases w with _ | w <;>
    simp only [checkAlertThresholds, truthy] <;> split_ifs <;> simp_all

lemma checkAlertThresholds_not_both (a : AlertThresholds) (heapUsed : ℚ) :
    ¬ (TickEvent.criticalAlert ∈ checkAlertThresholds a heapUsed ∧
        TickEvent.warningAlert ∈ checkAlertThresholds a heapUsed) := by
  simp only [checkAlertThresholds]
  split_ifs <;> simp

/-- C5 counterexample: with `alertThresholds.critical` set (to the value
`0`, falsy in JavaScript) and `heapUsed = 5 > 0 = critical`, the claim as
stated demands a `criticalAlert`, but the source's
`this.alertThresholds.critical && ...` guard evaluates falsy and the tick
emits no alert. -/
theorem C5_counterexample :
    (AlertThresholds.mk none (some 0)).critical = some 0 ∧
      (5 : ℚ) > 0 ∧
      TickEvent.criticalAlert ∉ tickEvents 100 (AlertThresholds.mk none (some 0)) 5 := by
  refine ⟨rfl, by norm_num, ?_⟩
  decide

/-- C5 (amended): on a tick, `thresholdExceeded` is emitted iff
`heapUsed > threshold`; a `criticalAlert` is emitted iff `critical` is set
to a truthy (nonzero) value exceeded by `heapUsed`; a `warningAlert` is
emitted iff the critical condition fails and `warning` is set to a truthy
value exceeded by `heapUsed`; the two alerts never fire together; and every
registered callback (registrations accumulate) is invoked exactly when the
hard threshold is breached. -/
theorem C5_tick_alerts (threshold : ℚ) (a : AlertThresholds)
    (heapUsed : ℚ) (callbacks : List β) (m : β) :
    (TickEvent.thresholdExceeded ∈ tickEvents threshold a heapUsed ↔
        heapUsed > threshold) ∧
    (TickEvent.criticalAlert ∈ tickEvents threshold a heapUsed ↔
        ∃ c, a.critical = some c ∧ c ≠ 0 ∧ heapUsed > c) ∧
    (TickEvent.warningAlert ∈ tickEvents threshold a heapUsed ↔
        (¬ ∃ c, a.critical = some c ∧ c ≠ 0 ∧ heapUsed > c) ∧
          ∃ w, a.warning = some w ∧ w ≠ 0 ∧ heapUsed > w) ∧
    ¬ (TickEvent.criticalAlert ∈ tickEvents threshold a heapUsed ∧
        TickEvent.warningAlert ∈ tickEvents threshold a heapUsed) ∧
    notifyOnThresholdExceeded callbacks m = callbacks ++ [m] ∧
    invokedCallbacks (notifyOnThresholdExceeded callbacks m) threshold heapUsed
      = (if heapUsed > threshold then callbacks ++ [m] else []) := by
  have hc := criticalAlert_mem a heapUsed
  have hw := warningAlert_mem a heapUsed
  have hnb := checkAlertThresholds_not_both a heapUsed
  refine ⟨?_, ?_, ?_, ?_, rfl, rfl⟩
  · simp only [tickEvents, List.mem_append]
    split_ifs with h <;> simp [h] <;>
      simp only [checkAlertThresholds] <;> split_ifs <;> simp
  · rw [← hc]
    simp only [tickEvents, List.mem_append]
    split_ifs <;> simp
  · rw [← hw]
    simp only [tickEvents, List.mem_append]
    split_ifs <;> simp
  · intro hboth
    apply hnb
    constructor
    · have := hboth.1
      simp only [tickEvents, List.mem_append] at this
      rcases this with (h | h) | h
      · split_ifs at h <;> simp_all
      · exact h
      · simp_all
    · have := hboth.2
      simp only [tickEvents, List.mem_append] at this
      rcases this with (h | h) | h
      · split_ifs at h <;> simp_all
      · exact h
      · simp_all

/-! ## Monitor state and `getStatistics` (claim C6)

`getCpuUsage` (MemoryMonitor.js lines 275–279), `calculateAverageMemory`
(lines 404–408), `getPeakMemory` (lines 410–426), `getPerformanceImpact`
(lines 332–345) and `getStatistics` (lines 429–458). -/

/-- The running self-overhead accumulator `this.performanceImpact`. -/
structure PerformanceImpact where
  time : ℚ
  count : Nat
  deriving Repr, DecidableEq

/-- The fields of a `MemoryMonitor` instance (constructor lines 8–24)
that the embedded operations read or write.  `maxHistorySize` is kept as an
integer since the constructor validates `maxHistorySize < 1`. -/
structure MonitorState where
  threshold : ℚ
  maxHistorySize : ℤ
  history : List MemEntry
  gcHistory : List GcEntry
  cpuUsageHistory : List CpuEntry
  lastCpuUsage : CpuUsage
  performanceImpact : PerformanceImpact
  deriving Repr, DecidableEq

/-- `getCpuUsage`: returns the delta of the current cumulative reading
`procCpu` against the stored baseline and replaces the baseline with the
current reading (the source's two back-to-back `process.cpuUsage()` calls
are modelled as one reading). -/
def getCpuUsage (st : MonitorState) (procCpu : CpuUsage) :
    CpuUsage × MonitorState :=
  (⟨procCpu.user - st.lastCpuUsage.user,
     procCpu.system - st.lastCpuUsage.system⟩,
   { st with lastCpuUsage := procCpu })

/-- `calculateAverageMemory`: mean heap-used across the memory history,
`0` when empty. -/
def calculateAverageMemory (st : MonitorState) : ℚ :=
  if st.history.length = 0 then 0
  else (st.history.map (fun e => e.memoryUsage.heapUsed)).sum / st.history.length

/-- The `value`/`timestamp` pair returned by `getPeakMemory`. -/
structure PeakMemory where
  value : ℚ
  timestamp : ℚ
  deriving Repr, DecidableEq

/-- The comparison step of `getPeakMemory`'s loop: strict `>` keeps the
earlier entry on ties. -/
def peakStep (p x : MemEntry) : MemEntry :=
  if x.memoryUsage.heapUsed > p.memoryUsage.heapUsed then x else p

/-- `getPeakMemory`; `now` stands for the `Date.now()` used in the
empty-history default. -/
def getPeakMemory (st : MonitorState) (now : ℚ) : PeakMemory :=
  match st.history with
  | [] => ⟨0, now⟩
  | e :: t =>
      let peak := (e :: t).foldl peakStep e
      ⟨peak.memoryUsage.heapUsed, peak.timestamp⟩

/-- The report returned by `getPerformanceImpact`. -/
structure PerformanceReport where
  averageTimeMs : ℚ
  totalTimeMs : ℚ
  count : Nat
  deriving Repr, DecidableEq

/-- `getPerformanceImpact`: zero report when no tick was measured, else the
stored nanosecond total converted to per-tick and total milliseconds. -/
def getPerformanceImpact (st : MonitorState) : PerformanceReport :=
  if st.performanceImpact.count = 0 then ⟨0, 0, 0⟩
  else ⟨st.performanceImpact.time / st.performanceImpact.count / 1000000,
        st.performanceImpact.time / 1000000,
        st.performanceImpact.count⟩

/-- The composite view assembled by `getStatistics`. -/
structure Statistics where
  currentMemory : MemoryUsage
  averageMemory : ℚ
  peak : PeakMemory
  trend : Option MemoryTrend
  cpuCurrent : CpuUsage
  cpuAverageUser : ℚ
  cpuAverageSystem : ℚ
  performance : PerformanceReport
  gcCount : Nat
  gcLastUpdate : Option ℚ
  deriving Repr, DecidableEq

/-- `getStatistics`: aggregates the composite view and — through its call
to `getCpuUsage` — replaces the stored CPU baseline; `procMem`/`procCpu`
are the current process readings and `now` stands for `Date.now()`. -/
def getStatistics (st : MonitorState) (procMem : MemoryUsage)
    (procCpu : CpuUsage) (now : ℚ) : Statistics × MonitorState :=
  let cpuSumUser := (st.cpuUsageHistory.map (fun e => e.cpuUsage.user)).sum
  let cpuSumSystem := (st.cpuUsageHistory.map (fun e => e.cpuUsage.system)).sum
  let cu := getCpuUsage st procCpu
  (⟨procMem,
    calculateAverageMemory st,
    getPeakMemory st now,
    analyzeMemoryTrend st.history,
    cu.1,
    (if 0 < st.cpuUsageHistory.length
      then cpuSumUser / st.cpuUsageHistory.length else 0),
    (if 0 < st.cpuUsageHistory.length
      then cpuSumSystem / st.cpuUsageHistory.length else 0),
    getPerformanceImpact st,
    st.gcHistory.length,
    st.gcHistory.getLast?.map (fun e => e.timestamp)⟩,
   cu.2)

lemma foldl_peakStep_spec (l : List MemEntry) :
    ∀ p0 : MemEntry,
      (l.foldl peakStep p0 = p0 ∧
        ∀ x ∈ l, x.memoryUsage.heapUsed ≤ p0.memoryUsage.heapUsed) ∨
      (∃ pre e post, l = pre ++ e :: post ∧
        l.foldl peakStep p0 = e ∧
        p0.memoryUsage.heapUsed < e.memoryUsage.heapUsed ∧
        (∀ x ∈ pre, x.memoryUsage.heapUsed < e.memoryUsage.heapUsed) ∧
        (∀ x ∈ post, x.memoryUsage.heapUsed ≤ e.memoryUsage.heapUsed)) := by
  induction l with
  | nil => intro p0; left; simp
  | cons a t ih =>
      intro p0
      by_cases ha : a.memoryUsage.heapUsed > p0.memoryUsage.heapUsed
      · have hstep : peakStep p0 a = a := by simp [peakStep, ha]
        rcases ih a with ⟨heq, hall⟩ | ⟨pre, e, post, hsplit, hfold, hlt, hpre, hpost⟩
        · right
          refine ⟨[], a, t, by simp, ?_, ha, by simp, hall⟩
          simpa [List.foldl_cons, hstep] using heq
        · right
          refine ⟨a :: pre, e, post, by simp [hsplit], ?_, lt_trans ha hlt, ?_, hpost⟩
          · simpa [List.foldl_cons, hstep] using hfold
          · intro x hx
            rcases List.mem_cons.mp hx with hx | hx
            · subst hx; exact hlt
            · exact hpre x hx
      · have hstep : peakStep p0 a = p0 := by simp [peakStep, ha]
        rcases ih p0 with ⟨heq, hall⟩ | ⟨pre, e, post, hsplit, hfold, hlt, hpre, hpost⟩
        · left
          constructor
          · simpa [List.foldl_cons, hstep] using heq
          · intro x hx
            rcases List.mem_cons.mp hx with hx | hx
            · subst hx; exact le_of_not_lt ha
            · exact hall x hx
        · right
          refine ⟨a :: pre, e, post, by simp [hsplit], ?_, hlt, ?_, hpost⟩
          · simpa [List.foldl_cons, hstep] using hfold
          · intro x hx
            rcases List.mem_cons.mp hx with hx | hx
            · subst hx; exact lt_of_le_of_lt (le_of_not_lt ha) hlt
            · exact hpre x hx

/-- `getPeakMemory` reports the value and timestamp of the first history
entry attaining the maximum heap-used. -/
lemma getPeakMemory_first_max (st : MonitorState) (now : ℚ)
    (hne : st.history ≠ []) :
    ∃ pre e post, st.history = pre ++ e :: post ∧
      (getPeakMemory st now).value = e.memoryUsage.heapUsed ∧
      (getPeakMemory st now).timestamp = e.timestamp ∧
      (∀ x ∈ pre, x.memoryUsage.heapUsed < e.memoryUsage.heapUsed) ∧
      (∀ x ∈ post, x.memoryUsage.heapUsed ≤ e.memoryUsage.heapUsed) := by
  rcases hh : st.history with _ | ⟨a, t⟩
  · exact absurd hh hne
  · have hred : getPeakMemory st now =
        ⟨((a :: t).foldl peakStep a).memoryUsage.heapUsed,
         ((a :: t).foldl peakStep a).timestamp⟩ := by
      simp only [getPeakMemory, hh]
    have hfirst : (a :: t).foldl peakStep a = t.foldl peakStep a := by
      simp [List.foldl_cons, peakStep]
    rcases foldl_peakStep_spec t a with ⟨heq, hall⟩ | ⟨pre, e, post, hsplit, hfold, hlt, hpre, hpost⟩
    · refine ⟨[], a, t, by simp [hh], ?_, ?_, by simp, hall⟩
      · rw [hred, hfirst, heq]
      · rw [hred, hfirst, heq]
    · refine ⟨a :: pre, e, post, by simp [hh, hsplit], ?_, ?_, ?_, hpost⟩
      · rw [hred, hfirst, hfold]
      · rw [hred, hfirst, hfold]
      · intro x hx
        rcases List.mem_cons.mp hx with hx | hx
        · subst hx; exact hlt
        · exact hpre x hx

/-- C6 counterexample: `getStatistics` is not mutation-free.  On a monitor
whose stored CPU baseline is `(0, 0)`, calling it while the cumulative
process CPU reading is `(1, 1)` replaces the baseline (through its
`getCpuUsage` call), so the post-state differs from the pre-state,
contradicting the claim that the stored last-CPU baseline is left
unchanged. -/
theorem C6_counterexample :
    (getStatistics ⟨100, 1000, [], [], [], ⟨0, 0⟩, ⟨0, 0⟩⟩
        ⟨0, 0, 0, 0⟩ ⟨1, 1⟩ 0).2
      ≠ (⟨100, 1000, [], [], [], ⟨0, 0⟩, ⟨0, 0⟩⟩ : MonitorState) := by
  decide

/-- C6 (amended): `getStatistics` leaves the history buffers, the
performance accumulator and the configuration unchanged — its only state
effect is replacing the stored last-CPU baseline with the current
cumulative reading (via `getCpuUsage`) — and its peak entry reports the
value and timestamp of the first occurrence of the maximum heap-used when
several history entries share it. -/
theorem C6_getStatistics (st : MonitorState) (procMem : MemoryUsage)
    (procCpu : CpuUsage) (now : ℚ) :
    (getStatistics st procMem procCpu now).2
        = { st with lastCpuUsage := procCpu } ∧
    (st.history ≠ [] →
      ∃ pre e post, st.history = pre ++ e :: post ∧
        (getStatistics st procMem procCpu now).1.peak.value
          = e.memoryUsage.heapUsed ∧
        (getStatistics st procMem procCpu now).1.peak.timestamp
          = e.timestamp ∧
        (∀ x ∈ pre, x.memoryUsage.heapUsed < e.memoryUsage.heapUsed) ∧
        (∀ x ∈ post, x.memoryUsage.heapUsed ≤ e.memoryUsage.heapUsed)) := by
  constructor
  · rfl
  · intro hne
    have hpeak : (getStatistics st procMem procCpu now).1.peak
        = getPeakMemory st now := rfl
    rw [hpeak]
    exact getPeakMemory_first_max st now hne

/-- Concrete instance of `C6_getStatistics`: a single-entry history and a
moved CPU baseline. -/
theorem C6_getStatistics_witness :
    (getStatistics ⟨100, 5, [⟨1, ⟨0, 0, 7, 0⟩⟩], [], [], ⟨0, 0⟩, ⟨0, 0⟩⟩
        ⟨0, 0, 0, 0⟩ ⟨2, 3⟩ 0).2
        = { (⟨100, 5, [⟨1, ⟨0, 0, 7, 0⟩⟩], [], [], ⟨0, 0⟩, ⟨0, 0⟩⟩ :
              MonitorState) with lastCpuUsage := ⟨2, 3⟩ } ∧
    ((⟨100, 5, [⟨1, ⟨0, 0, 7, 0⟩⟩], [], [], ⟨0, 0⟩, ⟨0, 0⟩⟩ :
        MonitorState).history ≠ [] →
      ∃ pre e post,
        (⟨100, 5, [⟨1, ⟨0, 0, 7, 0⟩⟩], [], [], ⟨0, 0⟩, ⟨0, 0⟩⟩ :
            MonitorState).history = pre ++ e :: post ∧
        (getStatistics ⟨100, 5, [⟨1, ⟨0, 0, 7, 0⟩⟩], [], [], ⟨0, 0⟩, ⟨0, 0⟩⟩
            ⟨0, 0, 0, 0⟩ ⟨2, 3⟩ 0).1.peak.value = e.memoryUsage.heapUsed ∧
        (getStatistics ⟨100, 5, [⟨1, ⟨0, 0, 7, 0⟩⟩], [], [], ⟨0, 0⟩, ⟨0, 0⟩⟩
            ⟨0, 0, 0, 0⟩ ⟨2, 3⟩ 0).1.peak.timestamp = e.timestamp ∧
        (∀ x ∈ pre, x.memoryUsage.heapUsed < e.memoryUsage.heapUsed) ∧
        (∀ x ∈ post, x.memoryUsage.heapUsed ≤ e.memoryUsage.heapUsed)) :=
  C6_getStatistics ⟨100, 5, [⟨1, ⟨0, 0, 7, 0⟩⟩], [], [], ⟨0, 0⟩, ⟨0, 0⟩⟩
    ⟨0, 0, 0, 0⟩ ⟨2, 3⟩ 0

/-! ## Report accessors and reference semantics (claim C7)

`getMemoryUsageReport`, `getCpuUsageReport` and `getGCReport`
(MemoryMonitor.js lines 155–165) return `[...buf]`: a fresh array whose
elements are the same entry objects.  JavaScript arrays and entry objects
are references into a heap, modelled by a store mapping array ids to lists
of entry-object ids and entry ids to current field values. -/

/-- A heap of JavaScript arrays of entry objects: `arrays` maps an array id
to its list of entry-object ids, `entries` maps an entry id to the entry's
current field values, and `nextArray` is the next fresh array id (every
allocated array id is below it). -/
structure JsStore (α : Type) where
  arrays : Nat → List Nat
  entries : Nat → α
  nextArray : Nat

/-- The spread copy `[...buf]`: allocate a fresh array holding the same
entry-object ids as `src`. -/
def spreadCopy (st : JsStore α) (src : Nat) : Nat × JsStore α :=
  (st.nextArray,
   { st with
      arrays := fun i => if i = st.nextArray then st.arrays src else st.arrays i,
      nextArray := st.nextArray + 1 })

/-- `getMemoryUsageReport` (line 156): `return [...this.history]`. -/
def getMemoryUsageReport (st : JsStore MemEntry) (historyId : Nat) :
    Nat × JsStore MemEntry :=
  spreadCopy st historyId

/-- `getCpuUsageReport` (line 160): `return [...this.cpuUsageHistory]`. -/
def getCpuUsageReport (st : JsStore CpuEntry) (cpuHistoryId : Nat) :
    Nat × JsStore CpuEntry :=
  spreadCopy st cpuHistoryId

/-- `getGCReport` (line 164): `return [...this.gcHistory]`. -/
def getGCReport (st : JsStore GcEntry) (gcHistoryId : Nat) :
    Nat × JsStore GcEntry :=
  spreadCopy st gcHistoryId

/-- Caller-side mutation of one entry object, e.g.
`report[0].timestamp = v`. -/
def writeEntry (st : JsStore α) (e : Nat) (v : α) : JsStore α :=
  { st with entries := fun i => if i = e then v else st.entries i }

/-- Caller-side mutation of the returned array itself, e.g.
`report.length = 0`, `report.push(x)` or `report[0] = y`. -/
def writeArray (st : JsStore α) (a : Nat) (ids : List Nat) : JsStore α :=
  { st with arrays := fun i => if i = a then ids else st.arrays i }

/-- The entry sequence an array currently denotes. -/
def readArray (st : JsStore α) (a : Nat) : List α :=
  (st.arrays a).map st.entries

/-- C7 counterexample: the reports are shallow copies, so mutating an entry
object reached through the returned report does change the entries the
internal history buffer contains.  Store: the history is array 0 holding
entry 0 with timestamp 1; the caller takes the memory report and assigns
entry fields through `report[0]`; the monitor's own buffer now reads
back the mutated entry, contradicting the claim that caller mutations
cannot change the entries the internal buffers contain. -/
theorem C7_counterexample :
    readArray
      (writeEntry
        (getMemoryUsageReport ⟨fun _ => [0], fun _ => ⟨1, ⟨0, 0, 7, 0⟩⟩, 1⟩ 0).2
        (((getMemoryUsageReport ⟨fun _ => [0], fun _ => ⟨1, ⟨0, 0, 7, 0⟩⟩, 1⟩ 0).2.arrays
            (getMemoryUsageReport ⟨fun _ => [0], fun _ => ⟨1, ⟨0, 0, 7, 0⟩⟩, 1⟩ 0).1).headI)
        ⟨99, ⟨0, 0, 0, 0⟩⟩)
      0
    ≠ readArray (⟨fun _ => [0], fun _ => ⟨1, ⟨0, 0, 7, 0⟩⟩, 1⟩ : JsStore MemEntry) 0 := by
  decide

lemma spreadCopy_spec (st : JsStore α) (src : Nat)
    (halloc : src < st.nextArray) :
    (spreadCopy st src).1 ≠ src ∧
    readArray (spreadCopy st src).2 (spreadCopy st src).1 = readArray st src ∧
    (∀ ids, readArray
        (writeArray (spreadCopy st src).2 (spreadCopy st src).1 ids) src
      = readArray st src) ∧
    (spreadCopy st src).2.arrays (spreadCopy st src).1 = st.arrays src := by
  have hne : st.nextArray ≠ src := by omega
  refine ⟨hne, ?_, ?_, ?_⟩
  · simp [spreadCopy, readArray]
  · intro ids
    simp [spreadCopy, writeArray, readArray, hne.symm, Ne.symm hne]
  · simp [spreadCopy]

/-- C7 (amended): each report accessor returns a fresh array — an
order-preserving copy whose contents equal the internal buffer at call
time, and array-level mutations of the report leave the internal buffer
unchanged — but the copy is shallow: it holds the very same entry-object
references as the internal buffer, so entry mutations through the report
do reach the monitor's entries (`C7_counterexample`). -/
theorem C7_report_accessors
    (stm : JsStore MemEntry) (hid : Nat) (hm : hid < stm.nextArray)
    (stc : JsStore CpuEntry) (cid : Nat) (hc : cid < stc.nextArray)
    (stg : JsStore GcEntry) (gid : Nat) (hg : gid < stg.nextArray) :
    ((getMemoryUsageReport stm hid).1 ≠ hid ∧
      readArray (getMemoryUsageReport stm hid).2 (getMemoryUsageReport stm hid).1
        = readArray stm hid ∧
      (∀ ids, readArray
          (writeArray (getMemoryUsageReport stm hid).2
            (getMemoryUsageReport stm hid).1 ids) hid
        = readArray stm hid) ∧
      (getMemoryUsageReport stm hid).2.arrays (getMemoryUsageReport stm hid).1
        = stm.arrays hid) ∧
    ((getCpuUsageReport stc cid).1 ≠ cid ∧
      readArray (getCpuUsageReport stc cid).2 (getCpuUsageReport stc cid).1
        = readArray stc cid ∧
      (∀ ids, readArray
          (writeArray (getCpuUsageReport stc cid).2
            (getCpuUsageReport stc cid).1 ids) cid
        = readArray stc cid) ∧
      (getCpuUsageReport stc cid).2.arrays (getCpuUsageReport stc cid).1
        = stc.arrays cid) ∧
    ((getGCReport stg gid).1 ≠ gid ∧
      readArray (getGCReport stg gid).2 (getGCReport stg gid).1
        = readArray stg gid ∧
      (∀ ids, readArray
          (writeArray (getGCReport stg gid).2
            (getGCReport stg gid).1 ids) gid
        = readArray stg gid) ∧
      (getGCReport stg gid).2.arrays (getGCReport stg gid).1
        = stg.arrays gid) :=
  ⟨spreadCopy_spec stm hid hm, spreadCopy_spec stc cid hc,
    spreadCopy_spec stg gid hg⟩

/-- Concrete single-entry stores for the report-accessor witness. -/
def memStore0 : JsStore MemEntry := ⟨fun _ => [0], fun _ => ⟨1, ⟨0, 0, 7, 0⟩⟩, 1⟩

/-- Concrete CPU-history store for the report-accessor witness. -/
def cpuStore0 : JsStore CpuEntry := ⟨fun _ => [0], fun _ => ⟨1, ⟨2, 3⟩⟩, 1⟩

/-- Concrete GC-history store for the report-accessor witness. -/
def gcStore0 : JsStore GcEntry := ⟨fun _ => [0], fun _ => ⟨1, 4⟩, 1⟩

/-- Concrete instance of `C7_report_accessors` on the three single-entry
stores, with the allocation bounds discharged by computation. -/
theorem C7_report_accessors_witness :
    (0 < memStore0.nextArray ∧ 0 < cpuStore0.nextArray ∧ 0 < gcStore0.nextArray) ∧
    ((getMemoryUsageReport memStore0 0).1 ≠ 0 ∧
      readArray (getMemoryUsageReport memStore0 0).2
          (getMemoryUsageReport memStore0 0).1
        = readArray memStore0 0) ∧
    (getCpuUsageReport cpuStore0 0).1 ≠ 0 ∧
    (getGCReport gcStore0 0).1 ≠ 0 :=
  ⟨⟨by decide, by decide, by decide⟩,
   ⟨(C7_report_accessors memStore0 0 (by decide) cpuStore0 0 (by decide)
        gcStore0 0 (by decide)).1.1,
    (C7_report_accessors memStore0 0 (by decide) cpuStore0 0 (by decide)
        gcStore0 0 (by decide)).1.2.1⟩,
   (C7_report_accessors memStore0 0 (by decide) cpuStore0 0 (by decide)
      gcStore0 0 (by decide)).2.1.1,
   (C7_report_accessors memStore0 0 (by decide) cpuStore0 0 (by decide)
      gcStore0 0 (by decide)).2.2.1⟩

/-! ## Constructor validation (claim C8)

The `MemoryMonitor` constructor (MemoryMonitor.js lines 8–24). -/

/-- The constructor: validation then the initial state; `initialCpu` stands
for the `process.cpuUsage()` reading taken at construction.  All buffers
start empty and the performance accumulator starts at `(0, 0)`. -/
def mkMonitor (threshold : ℚ) (maxHistorySize : ℤ) (initialCpu : CpuUsage) :
    Except String MonitorState :=
  if threshold ≤ 0 then .error "Threshold must be a positive number"
  else if maxHistorySize < 1 then .error "Max history size must be at least 1"
  else .ok ⟨threshold, maxHistorySize, [], [], [], initialCpu, ⟨0, 0⟩⟩

/-- C8: constructing with `threshold ≤ 0` or `maxHistorySize < 1` throws
synchronously (no monitor state is produced), while a valid construction
stores exactly the passed `threshold` and `maxHistorySize` with all three
history buffers empty. -/
theorem C8_constructor (threshold : ℚ) (maxHistorySize : ℤ)
    (initialCpu : CpuUsage) :
    ((threshold ≤ 0 ∨ maxHistorySize < 1) →
      ∃ msg, mkMonitor threshold maxHistorySize initialCpu = .error msg) ∧
    (0 < threshold → 1 ≤ maxHistorySize →
      mkMonitor threshold maxHistorySize initialCpu
        = .ok ⟨threshold, maxHistorySize, [], [], [], initialCpu, ⟨0, 0⟩⟩) := by
  constructor
  · intro h
    rcases h with h | h
    · exact ⟨"Threshold must be a positive number", by simp [mkMonitor, h]⟩
    · by_cases ht : threshold ≤ 0
      · exact ⟨"Threshold must be a positive number", by simp [mkMonitor, ht]⟩
      · exact ⟨"Max history size must be at least 1", by simp [mkMonitor, ht, h]⟩
  · intro ht hm
    have ht' : ¬ threshold ≤ 0 := not_le.mpr ht
    have hm' : ¬ maxHistorySize < 1 := not_lt.mpr hm
    simp [mkMonitor, ht', hm']

/-- Concrete instances of `C8_constructor`: a valid construction stores the
passed values, and a zero threshold is rejected. -/
theorem C8_constructor_witness :
    (0 < (100 : ℚ) ∧ (1 : ℤ) ≤ 1000 ∧
      mkMonitor 100 1000 ⟨0, 0⟩
        = .ok ⟨100, 1000, [], [], [], ⟨0, 0⟩, ⟨0, 0⟩⟩) ∧
    ((0 : ℚ) ≤ 0 ∧
      ∃ msg, mkMonitor 0 1000 ⟨0, 0⟩ = .error msg) :=
  ⟨⟨by norm_num, by norm_num,
     (C8_constructor 100 1000 ⟨0, 0⟩).2 (by norm_num) (by norm_num)⟩,
   ⟨le_refl 0, (C8_constructor 0 1000 ⟨0, 0⟩).1 (Or.inl (le_refl 0))⟩⟩

/-! ## Report export (claim C10)

`exportReport` (MemoryMonitor.js lines 365–391) and `convertToCSV`
(lines 393–402). -/

/-- `convertToCSV`: the fixed header plus one row per memory-history
entry. -/
def convertToCSV (history : List MemEntry) : String :=
  history.foldl
    (fun csv e =>
      csv ++ toString e.timestamp ++ "," ++ toString e.memoryUsage.heapUsed
        ++ "," ++ toString e.memoryUsage.heapTotal ++ ","
        ++ toString e.memoryUsage.rss ++ ","
        ++ toString e.memoryUsage.external ++ "\n")
    "Timestamp,Heap Used (bytes),Heap Total (bytes),RSS (bytes),External (bytes)\n"

/-- The data `exportReport` serializes to disk in each format. -/
inductive FileContent
  | json (memoryHistory : List MemEntry) (cpuHistory : List CpuEntry)
      (gcHistory : List GcEntry) (totalSamples : Nat)
      (averageMemoryUsage : ℚ) (peakMemoryUsage : PeakMemory)
      (currentMemory : MemoryUsage) (performance : PerformanceReport)
  | csv (text : String)
  deriving Repr, DecidableEq

/-- One emitted `reportExported` event. -/
structure ReportExportedEvent where
  path : String
  format : String
  deriving Repr, DecidableEq

/-- The default export path `memvigil-report-<now>.<format>` (line 380,
with the OS temp directory elided); `now` stands for `Date.now()`. -/
def defaultReportPath (format : String) (now : ℕ) : String :=
  "memvigil-report-" ++ toString now ++ "." ++ format

/-- `exportReport`: assemble the report, resolve the final path, write JSON
for "json", CSV for "csv" and nothing for any other format, then emit
`reportExported` and resolve with the final path.  The triple collects the
file writes performed, the events emitted and the promise's resolution
value. -/
def exportReport (st : MonitorState) (procMem : MemoryUsage)
    (format : String) (filePath : Option String) (now : ℕ) :
    List (String × FileContent) × List ReportExportedEvent × String :=
  let finalPath := filePath.getD (defaultReportPath format now)
  let writes :=
    if format = "json" then
      [(finalPath,
        FileContent.json st.history st.cpuUsageHistory st.gcHistory
          st.history.length (calculateAverageMemory st)
          (getPeakMemory st (now : ℚ)) procMem (getPerformanceImpact st))]
    else if format = "csv" then
      [(finalPath, FileContent.csv (convertToCSV st.history))]
    else []
  (writes, [⟨finalPath, format⟩], finalPath)

/-- C10: for every format other than "json" and "csv", `exportReport`
writes no file, yet still emits exactly one `reportExported` event carrying
the computed file path and resolves successfully with that path — the
unrecognized format is neither rejected nor reported as an error. -/
theorem C10_exportReport (st : MonitorState) (procMem : MemoryUsage)
    (format : String) (filePath : Option String) (now : ℕ)
    (hjson : format ≠ "json") (hcsv : format ≠ "csv") :
    (exportReport st procMem format filePath now).1 = [] ∧
    (exportReport st procMem format filePath now).2.1
      = [⟨filePath.getD (defaultReportPath format now), format⟩] ∧
    (exportReport st procMem format filePath now).2.2
      = filePath.getD (defaultReportPath format now) := by
  simp [exportReport, hjson, hcsv]

/-- Concrete instance of `C10_exportReport`: format "xml" on an empty
monitor writes nothing but still reports success. -/
theorem C10_exportReport_witness :
    ("xml" ≠ "json") ∧ ("xml" ≠ "csv") ∧
    ((exportReport ⟨100, 1000, [], [], [], ⟨0, 0⟩, ⟨0, 0⟩⟩ ⟨0, 0, 0, 0⟩
        "xml" none 7).1 = [] ∧
      (exportReport ⟨100, 1000, [], [], [], ⟨0, 0⟩, ⟨0, 0⟩⟩ ⟨0, 0, 0, 0⟩
        "xml" none 7).2.1
        = [⟨(none : Option String).getD (defaultReportPath "xml" 7), "xml"⟩] ∧
      (exportReport ⟨100, 1000, [], [], [], ⟨0, 0⟩, ⟨0, 0⟩⟩ ⟨0, 0, 0, 0⟩
        "xml" none 7).2.2
        = (none : Option String).getD (defaultReportPath "xml" 7)) :=
  ⟨by decide, by decide,
    C10_exportReport ⟨100, 1000, [], [], [], ⟨0, 0⟩, ⟨0, 0⟩⟩ ⟨0, 0, 0, 0⟩
      "xml" none 7 (by decide) (by decide)⟩

/-! ## Timer lifecycle (claim C9)

`startMonitoring` (MemoryMonitor.js lines 26–78), `stopMonitoring`
(lines 80–89) and `trackGarbageCollection` (lines 258–273). -/

/-- The host timer table: the list of live interval-timer ids and the next
fresh id (every live id was allocated, hence is below `nextId`). -/
structure TimerSystem where
  active : List Nat
  nextId : Nat
  deriving Repr, DecidableEq

/-- `setInterval`: registers a fresh periodic timer and returns its id. -/
def setIntervalT (ts : TimerSystem) : Nat × TimerSystem :=
  (ts.nextId, ⟨ts.active ++ [ts.nextId], ts.nextId + 1⟩)

/-- `clearInterval`: deregisters a timer id (a no-op when not live). -/
def clearIntervalT (ts : TimerSystem) (id : Nat) : TimerSystem :=
  ⟨ts.active.filter (fun x => x ≠ id), ts.nextId⟩

/-- The timer-holding fields of the monitor: `this.interval`,
`this.gcTrackingInterval` and the `enableGC` option. -/
structure SchedState where
  interval : Option Nat
  gcTrackingInterval : Option Nat
  enableGC : Bool
  deriving Repr, DecidableEq

/-- `stopMonitoring`: clear and null the main timer, then the GC timer. -/
def stopMonitoring (s : SchedState) (ts : TimerSystem) :
    SchedState × TimerSystem :=
  let p1 : SchedState × TimerSystem :=
    match s.interval with
    | some id => ({ s with interval := none }, clearIntervalT ts id)
    | none => (s, ts)
  match p1.1.gcTrackingInterval with
  | some id => ({ p1.1 with gcTrackingInterval := none }, clearIntervalT p1.2 id)
  | none => p1

/-- `trackGarbageCollection`: start the fixed-cadence GC stats timer. -/
def trackGarbageCollection (s : SchedState) (ts : TimerSystem) :
    SchedState × TimerSystem :=
  let r := setIntervalT ts
  ({ s with gcTrackingInterval := some r.1 }, r.2)

/-- `startMonitoring`: validate the interval, stop the prior timers when
already running, start the main timer, and start GC tracking when
enabled. -/
def startMonitoring (s : SchedState) (ts : TimerSystem) (intervalMs : Nat) :
    Except String (SchedState × TimerSystem) :=
  if intervalMs < 1000 then .error "Interval must be at least 1000ms"
  else
    let p1 : SchedState × TimerSystem :=
      if s.interval.isSome then stopMonitoring s ts else (s, ts)
    let r := setIntervalT p1.2
    let s2 : SchedState := { p1.1 with interval := some r.1 }
    if s2.enableGC then .ok (trackGarbageCollection s2 r.2)
    else .ok (s2, r.2)

lemma stopMonitoring_fields (s : SchedState) (ts : TimerSystem) :
    (stopMonitoring s ts).1.interval = none ∧
    (stopMonitoring s ts).1.gcTrackingInterval = none ∧
    (stopMonitoring s ts).2.nextId = ts.nextId ∧
    ∀ x, x ∈ (stopMonitoring s ts).2.active ↔
      (x ∈ ts.active ∧ s.interval ≠ some x ∧ s.gcTrackingInterval ≠ some x) := by
  rcases s with ⟨i, g, e⟩
  rcases i with _ | i <;> rcases g with _ | g <;>
    refine ⟨rfl, rfl, rfl, fun x => ?_⟩ <;>
    simp [stopMonitoring, clearIntervalT] <;> tauto

lemma stopMonitoring_idem (s : SchedState) (ts : TimerSystem) :
    stopMonitoring (stopMonitoring s ts).1 (stopMonitoring s ts).2
      = stopMonitoring s ts := by
  rcases s with ⟨i, g, e⟩
  rcases i with _ | i <;> rcases g with _ | g <;> rfl

/-- C9: starting with an interval below 1000 ms throws without allocating a
timer; a valid start yields a monitor whose main timer is freshly
registered, with any previously running main timer cleared first (so at
most one main timer of the monitor is live); `stopMonitoring` clears both
the main and GC timers, and is idempotent. -/
theorem C9_timer_lifecycle (s : SchedState) (ts : TimerSystem)
    (intervalMs : Nat)
    (hwf : ∀ id, s.interval = some id → id < ts.nextId) :
    (intervalMs < 1000 →
      ∃ msg, startMonitoring s ts intervalMs = .error msg) ∧
    (1000 ≤ intervalMs →
      ∃ s2 ts2, startMonitoring s ts intervalMs = .ok (s2, ts2) ∧
        (∃ newId, s2.interval = some newId ∧ newId ∈ ts2.active) ∧
        (∀ oldId, s.interval = some oldId → oldId ∉ ts2.active)) ∧
    ((stopMonitoring s ts).1.interval = none ∧
      (stopMonitoring s ts).1.gcTrackingInterval = none ∧
      (∀ id, s.interval = some id → id ∉ (stopMonitoring s ts).2.active) ∧
      (∀ id, s.gcTrackingInterval = some id →
          id ∉ (stopMonitoring s ts).2.active) ∧
      stopMonitoring (stopMonitoring s ts).1 (stopMonitoring s ts).2
        = stopMonitoring s ts) := by
  obtain ⟨hint, hgcn, hnid, hmem⟩ := stopMonitoring_fields s ts
  refine ⟨?_, ?_, hint, hgcn, ?_, ?_, stopMonitoring_idem s ts⟩
  · intro h
    exact ⟨"Interval must be at least 1000ms", by simp [startMonitoring, h]⟩
  · intro h1000
    have hni : ¬ intervalMs < 1000 := by omega
    rcases s with ⟨i, g, e⟩
    rcases ts with ⟨act, nid⟩
    rcases i with _ | oldId
    · cases e
      · exact ⟨⟨some nid, g, false⟩, ⟨act ++ [nid], nid + 1⟩,
          by simp [startMonitoring, setIntervalT, hni],
          ⟨nid, rfl, by simp⟩,
          by intro oldId hx; exact absurd hx (by simp)⟩
      · exact ⟨⟨some nid, some (nid + 1), true⟩,
          ⟨act ++ [nid] ++ [nid + 1], nid + 2⟩,
          by simp [startMonitoring, setIntervalT, trackGarbageCollection, hni],
          ⟨nid, rfl, by simp⟩,
          by intro oldId hx; exact absurd hx (by simp)⟩
    · have hlt : oldId < nid := hwf oldId rfl
      rcases g with _ | gid
      · cases e
        · refine ⟨⟨some nid, none, false⟩,
            ⟨act.filter (fun x => x ≠ oldId) ++ [nid], nid + 1⟩,
            by simp [startMonitoring, stopMonitoring, clearIntervalT,
              setIntervalT, hni],
            ⟨nid, rfl, by simp⟩, ?_⟩
          intro o ho
          have : o = oldId := by simpa using ho.symm
          subst this
          simp [List.mem_filter]
          omega
        · refine ⟨⟨some nid, some (nid + 1), true⟩,
            ⟨act.filter (fun x => x ≠ oldId) ++ [nid] ++ [nid + 1], nid + 2⟩,
            by simp [startMonitoring, stopMonitoring, clearIntervalT,
              setIntervalT, trackGarbageCollection, hni],
            ⟨nid, rfl, by simp⟩, ?_⟩
          intro o ho
          have : o = oldId := by simpa using ho.symm
          subst this
          simp [List.mem_filter]
          omega
      · cases e
        · refine ⟨⟨some nid, none, false⟩,
            ⟨(act.filter (fun x => x ≠ oldId)).filter (fun x => x ≠ gid)
                ++ [nid], nid + 1⟩,
            by simp [startMonitoring, stopMonitoring, clearIntervalT,
              setIntervalT, hni],
            ⟨nid, rfl, by simp⟩, ?_⟩
          intro o ho
          have : o = oldId := by simpa using ho.symm
          subst this
          simp [List.mem_filter]
          omega
        · refine ⟨⟨some nid, some (nid + 1), true⟩,
            ⟨(act.filter (fun x => x ≠ oldId)).filter (fun x => x ≠ gid)
                ++ [nid] ++ [nid + 1], nid + 2⟩,
            by simp [startMonitoring, stopMonitoring, clearIntervalT,
              setIntervalT, trackGarbageCollection, hni],
            ⟨nid, rfl, by simp⟩, ?_⟩
          intro o ho
          have : o = oldId := by simpa using ho.symm
          subst this
          simp [List.mem_filter]
          omega
  · intro id hid
    intro hin
    exact ((hmem id).mp hin).2.1 hid
  · intro id hid
    intro hin
    exact ((hmem id).mp hin).2.2 hid

/-- Concrete instance of `C9_timer_lifecycle`: a monitor whose main timer 3
is live in a timer table with ids up to 5, restarted and stopped. -/
theorem C9_timer_lifecycle_witness :
    (∀ id, (⟨some 3, some 4, true⟩ : SchedState).interval = some id →
        id < (⟨[3, 4], 5⟩ : TimerSystem).nextId) ∧
    ((500 < 1000 →
      ∃ msg, startMonitoring ⟨some 3, some 4, true⟩ ⟨[3, 4], 5⟩ 500
        = .error msg) ∧
    (1000 ≤ 500 →
      ∃ s2 ts2, startMonitoring ⟨some 3, some 4, true⟩ ⟨[3, 4], 5⟩ 500
          = .ok (s2, ts2) ∧
        (∃ newId, s2.interval = some newId ∧ newId ∈ ts2.active) ∧
        (∀ oldId, (⟨some 3, some 4, true⟩ : SchedState).interval = some oldId →
            oldId ∉ ts2.active)) ∧
    ((stopMonitoring ⟨some 3, some 4, true⟩ ⟨[3, 4], 5⟩).1.interval = none ∧
      (stopMonitoring ⟨some 3, some 4, true⟩ ⟨[3, 4], 5⟩).1.gcTrackingInterval
        = none ∧
      (∀ id, (⟨some 3, some 4, true⟩ : SchedState).interval = some id →
          id ∉ (stopMonitoring ⟨some 3, some 4, true⟩ ⟨[3, 4], 5⟩).2.active) ∧
      (∀ id, (⟨some 3, some 4, true⟩ : SchedState).gcTrackingInterval = some id →
          id ∉ (stopMonitoring ⟨some 3, some 4, true⟩ ⟨[3, 4], 5⟩).2.active) ∧
      stopMonitoring (stopMonitoring ⟨some 3, some 4, true⟩ ⟨[3, 4], 5⟩).1
          (stopMonitoring ⟨some 3, some 4, true⟩ ⟨[3, 4], 5⟩).2
        = stopMonitoring ⟨some 3, some 4, true⟩ ⟨[3, 4], 5⟩)) :=
  ⟨by intro id h; simp at h; subst h; decide,
   C9_timer_lifecycle ⟨some 3, some 4, true⟩ ⟨[3, 4], 5⟩ 500
     (by intro id h; simp at h; subst h; decide)⟩

end Memvigil
